import Mathlib

/-!
Verification of `src/telegram/thinking-updater.ts` (moltbot).

Shallow embedding: the module's pure renderer (`buildMessage`,
`extractToolArgs`, `escapeHtml`) is translated to Lean functions on
`String`/`List Char`; the stateful updater created by
`createThinkingUpdater` is translated to an explicit session state and a
step function over timestamped events.  JavaScript's single-threaded event
loop means every synchronous code segment runs without interleaving and
suspension happens only at `await`ed transport calls and timer waits, so
each externally observable event (an API call such as `update`, a timer
firing, the completion of an outstanding transport call) becomes one atomic
step.  Times are naturals (milliseconds, `Date.now()`).  JS strings are
modelled as Lean strings (one `Char` per UTF-16 code unit; all string
literals involved are BMP, where the two coincide).
-/

namespace ThinkingUpdater

/-- A JavaScript value stored in a tool's `args` record
(`Record<string, unknown>`).  `extractToolArgs` only ever distinguishes
string values (`typeof val === "string"`) from everything else. -/
inductive JsVal where
  | str (s : String)
  | other
deriving DecidableEq

/-- Whitespace recognised by JavaScript `String.prototype.trim` (the
common characters; exotic Unicode space classes are not used by the
claims). -/
def isJsSpace (c : Char) : Bool :=
  c = ' ' || c = '\t' || c = '\n' || c = '\r' || c = '\x0b' || c = '\x0c'

/-- JS `s.trim()`. -/
def jsTrim (s : String) : String :=
  String.mk (((s.data.dropWhile isJsSpace).reverse.dropWhile isJsSpace).reverse)

/-- JS `s.toLowerCase()` (ASCII; tool names in the extractor table are
ASCII). -/
def jsToLower (s : String) : String :=
  String.mk (s.data.map Char.toLower)

/-- JS `s.slice(k)` with a single (possibly negative) argument:
negative `k` starts `max(len + k, 0)` from the beginning, nonnegative `k`
starts at `min(k, len)`. -/
def jsSliceFrom (s : String) (k : Int) : String :=
  String.mk (s.data.drop (if k < 0 then s.length - k.natAbs else min k.toNat s.length))

/-- JS `arr.slice(-n)`: the last `min n len` elements. -/
def jsSliceLast (l : List α) (n : Nat) : List α :=
  l.drop (l.length - n)

/-- JS `s.slice(0, n)` for nonnegative `n`. -/
def jsSliceTo (s : String) (n : Nat) : String :=
  String.mk (s.data.take n)

/-- `escapeHtml` (lines 126-128): the three sequential global replaces
`& → &amp;`, `< → &lt;`, `> → &gt;`.  Because `&` is replaced first and the
inserted entities contain no `<` or `>`, the chain is exactly a
character-by-character expansion. -/
def escapeHtmlChar (c : Char) : List Char :=
  if c = '&' then "&amp;".data
  else if c = '<' then "&lt;".data
  else if c = '>' then "&gt;".data
  else [c]

def escapeHtml (text : String) : String :=
  String.mk (text.data.flatMap escapeHtmlChar)

/-- `ToolDisplayConfig` (lines 14-19).  Optional fields are `Option`;
`none` is TS `undefined`. -/
structure ToolDisplayConfig where
  enabled : Option Bool
  mode : Option String
  showArgs : Option Bool
  maxArgsLength : Option Nat
deriving DecidableEq

/-- `ThinkingConfig` (lines 6-12). -/
structure ThinkingConfig where
  enabled : Option Bool
  mode : Option String
  updateInterval : Option Nat
  maxLength : Option Nat
  completionMode : Option String
deriving DecidableEq

/-- `ToolEntry` (lines 21-25); `args` is an insertion-ordered record. -/
structure ToolEntry where
  name : String
  args : Option (List (String × JsVal))
  startedAt : Nat
deriving DecidableEq

/-- `CompletedToolEntry` (lines 27-30), with the inherited `ToolEntry`
fields flattened. -/
structure CompletedToolEntry where
  name : String
  args : Option (List (String × JsVal))
  startedAt : Nat
  failed : Bool
  duration : Nat
deriving DecidableEq

/-- `TOOL_ARG_EXTRACTORS` (lines 32-44). -/
def TOOL_ARG_EXTRACTORS : List (String × List String) :=
  [("read", ["path"]),
   ("write", ["path"]),
   ("edit", ["file_path"]),
   ("exec", ["command"]),
   ("bash", ["command"]),
   ("search", ["pattern", "query"]),
   ("grep", ["pattern"]),
   ("glob", ["pattern"]),
   ("web_search", ["query"]),
   ("web_fetch", ["url"]),
   ("list_directory", ["path"])]

/-- Truncation applied to a chosen argument string (lines 58, 66):
`trimmed.length > maxLen ? trimmed.slice(0, maxLen) + "…" : trimmed`. -/
def truncArg (maxLen : Nat) (trimmed : String) : String :=
  if trimmed.length > maxLen then jsSliceTo trimmed maxLen ++ "…" else trimmed

/-- The keyed loop of `extractToolArgs` (lines 53-61): first configured key
whose value is a string with nonempty trim. -/
def firstKeyArg (argList : List (String × JsVal)) (maxLen : Nat) :
    List String → Option String
  | [] => none
  | k :: ks =>
    match (argList.find? (fun p => p.1 == k)).map Prod.snd with
    | some (JsVal.str v) =>
      if jsTrim v ≠ "" then some (truncArg maxLen (jsTrim v))
      else firstKeyArg argList maxLen ks
    | _ => firstKeyArg argList maxLen ks

/-- The fallback loop of `extractToolArgs` (lines 62-68): first
string-valued entry with nonempty trim, in record insertion order. -/
def firstStrVal (maxLen : Nat) : List (String × JsVal) → Option String
  | [] => none
  | (_, JsVal.str v) :: rest =>
    if jsTrim v ≠ "" then some (truncArg maxLen (jsTrim v))
    else firstStrVal maxLen rest
  | _ :: rest => firstStrVal maxLen rest

/-- `extractToolArgs` (lines 46-70). -/
def extractToolArgs (name : String) (args : Option (List (String × JsVal)))
    (maxLen : Nat) : String :=
  match args with
  | none => ""
  | some argList =>
    let keyed :=
      match (TOOL_ARG_EXTRACTORS.find? (fun p => p.1 == jsToLower name)).map Prod.snd with
      | some keys => firstKeyArg argList maxLen keys
      | none => none
    ((keyed.orElse (fun _ => firstStrVal maxLen argList))).getD ""

/-- The thinking-text truncation inside `buildMessage` (lines 84-87).
The arithmetic is over JS numbers, hence `Int` (so that a `maxLength`
below 200 behaves as in the source). -/
def trimThinking (maxLength : Nat) (text : String) : String :=
  if (text.length : Int) > (maxLength : Int) - 200 then
    "…" ++ jsSliceFrom text (-((maxLength : Int) - 200))
  else text

/-- Lines 81-89 of `buildMessage`: the thinking block.  JS
`if (thinkingText)` is falsy both for `undefined` and for `""`. -/
def thinkingLines (maxLength : Nat) : Option String → List String
  | none => []
  | some text =>
    if text = "" then []
    else ["🧠 <b>Thinking</b>", "",
          "<blockquote>" ++ escapeHtml (trimThinking maxLength text) ++ "</blockquote>"]

/-- The `argStr ? ... : ...` line assembly shared by lines 100-102 and
111-113. -/
def lineWithArg (icon name argStr : String) : String :=
  if argStr ≠ "" then
    icon ++ " <code>" ++ escapeHtml name ++ "</code> " ++ escapeHtml argStr
  else icon ++ " <code>" ++ escapeHtml name ++ "</code>"

/-- One completed-tool line (lines 94-104). -/
def completedLine (toolDisplay : ToolDisplayConfig) (completed : CompletedToolEntry) :
    String :=
  let icon := if completed.failed then "❌" else "✅"
  let argStr :=
    if toolDisplay.showArgs ≠ some false then
      extractToolArgs completed.name completed.args (toolDisplay.maxArgsLength.getD 150)
    else ""
  lineWithArg icon completed.name argStr

/-- One active-tool line (lines 106-115). -/
def activeLine (toolDisplay : ToolDisplayConfig) (entry : ToolEntry) : String :=
  let argStr :=
    if toolDisplay.showArgs ≠ some false then
      extractToolArgs entry.name entry.args (toolDisplay.maxArgsLength.getD 150)
    else ""
  lineWithArg "⏳" entry.name argStr

/-- The lines pushed by the two loops of the tool section (lines 94-115):
`completedTools.slice(-10)` in order, then the active entries in map
insertion order. -/
def toolLines (toolDisplay : ToolDisplayConfig)
    (activeTools : List (String × ToolEntry))
    (completedTools : List CompletedToolEntry) : List String :=
  (jsSliceLast completedTools 10).map (completedLine toolDisplay)
    ++ activeTools.map (fun p => activeLine toolDisplay p.2)

/-- JS `parts.join("\n")` (line 122). -/
def joinLines : List String → String
  | [] => ""
  | [a] => a
  | a :: rest => a ++ "\n" ++ joinLines rest

/-- `buildMessage` before the final 4096 cap: lines 79-122. -/
def rawMessage (thinkingText : Option String)
    (activeTools : List (String × ToolEntry))
    (completedTools : List CompletedToolEntry)
    (toolDisplay : ToolDisplayConfig) (maxLength : Nat) : String :=
  let parts := thinkingLines maxLength thinkingText
  let parts :=
    if toolDisplay.enabled ≠ some false ∧
        (activeTools.length > 0 ∨ completedTools.length > 0) then
      parts ++ (if parts.length > 0 then [""] else [])
        ++ toolLines toolDisplay activeTools completedTools
    else parts
  let parts := if parts.length = 0 then ["🧠 <b>Thinking…</b>"] else parts
  joinLines parts

/-- `buildMessage` (lines 72-124), including the hard cap of line 123:
`result.length > 4096 ? result.slice(0, 4093) + "…" : result`. -/
def buildMessage (thinkingText : Option String)
    (activeTools : List (String × ToolEntry))
    (completedTools : List CompletedToolEntry)
    (toolDisplay : ToolDisplayConfig) (maxLength : Nat) : String :=
  if (rawMessage thinkingText activeTools completedTools toolDisplay maxLength).length > 4096 then
    jsSliceTo (rawMessage thinkingText activeTools completedTools toolDisplay maxLength) 4093 ++ "…"
  else rawMessage thinkingText activeTools completedTools toolDisplay maxLength

/-! ## The stateful updater (`createThinkingUpdater`, lines 141-308)

The closed-over mutable variables of lines 156-165 become the fields of
`SessionState`.  In addition the model keeps `outstanding`, the list of
transport calls started by a delivery cycle (`sendOrEdit`) whose `await`
has not yet resolved; a call is appended when the `api.sendMessage` /
`api.editMessageText` promise is created and removed by the
`Ev.complete` event that models its resolution.  The `chatId`,
`messageThreadId` and `api` parameters are opaque transport addressing and
are not part of any claim, so they are not modelled. -/

/-- JS `Map` (insertion-ordered) as an association list.  `Map.set` keeps
the original position of an existing key; `Map.delete` removes it. -/
def mapGet (m : List (String × α)) (k : String) : Option α :=
  (m.find? (fun p => p.1 == k)).map Prod.snd

def mapSet (m : List (String × α)) (k : String) (v : α) : List (String × α) :=
  if (m.find? (fun p => p.1 == k)).isSome then
    m.map (fun p => if p.1 == k then (k, v) else p)
  else m ++ [(k, v)]

def mapDelete (m : List (String × α)) (k : String) : List (String × α) :=
  m.filter (fun p => p.1 != k)

/-- A transport operation against the Telegram API. -/
inductive TransportOp where
  | create (content : String)
  | edit (msgId : Nat) (content : String)
  | remove (msgId : Nat)
deriving DecidableEq

/-- Which code path emitted a transport call: a delivery cycle
(`sendOrEdit`, lines 167-188), the final edit of `collapse`
(line 282), or the `deleteMessage` of `delete` (line 262). -/
inductive CallSource where
  | deliveryCycle
  | collapseEdit
  | deleteCall
deriving DecidableEq

structure Call where
  time : Nat
  op : TransportOp
  source : CallSource
deriving DecidableEq

/-- Resolution of an awaited delivery call: the transport either returns a
sent message (carrying its `message_id`) or throws. -/
inductive DeliveryResult where
  | success (newMessageId : Nat)
  | failure
deriving DecidableEq

/-- The closed-over state of one updater session (lines 156-165), plus
the `outstanding` bookkeeping described above. -/
structure SessionState where
  messageId : Option Nat
  thinkingText : Option String
  activeTools : List (String × ToolEntry)
  completedTools : List CompletedToolEntry
  lastSentContent : String
  lastSentAt : Nat
  timer : Option Nat
  inFlight : Bool
  stopped : Bool
  pendingUpdate : Bool
  outstanding : List Call
deriving DecidableEq

def initState : SessionState :=
  { messageId := none
    thinkingText := none
    activeTools := []
    completedTools := []
    lastSentContent := ""
    lastSentAt := 0
    timer := none
    inFlight := false
    stopped := false
    pendingUpdate := false
    outstanding := [] }

/-- The configuration captured at lines 148-150. -/
structure Config where
  thinkingConfig : ThinkingConfig
  toolDisplay : ToolDisplayConfig
deriving DecidableEq

def Config.updateInterval (cfg : Config) : Nat :=
  cfg.thinkingConfig.updateInterval.getD 800

def Config.maxLength (cfg : Config) : Nat :=
  cfg.thinkingConfig.maxLength.getD 3800

/-- `sendOrEdit` up to its `await` (lines 167-182): the dedupe/stopped
guard, then the eager `lastSentContent`/`lastSentAt` assignment, then the
start of the transport call (create when no `messageId` exists yet, edit
otherwise).  The call itself is returned; its resolution is a separate
`Ev.complete` event.  The `catch` of lines 183-187 only logs, so a failed
resolution changes nothing (see `completeDelivery`). -/
def sendOrEdit (t : Nat) (s : SessionState) (content : String) :
    SessionState × Option Call :=
  if s.stopped ∨ content = s.lastSentContent then (s, none)
  else
    let op := match s.messageId with
      | none => TransportOp.create content
      | some m => TransportOp.edit m content
    let c : Call := ⟨t, op, CallSource.deliveryCycle⟩
    ({ s with lastSentContent := content, lastSentAt := t,
              outstanding := s.outstanding ++ [c] }, some c)

/-- `schedule` (lines 213-220).  The armed timeout is modelled by its
absolute fire deadline `now + max(0, interval - (now - lastSentAt))`; over
naturals with truncated subtraction this is
`t + (interval - (t - lastSentAt))`, which coincides with the JS value
whenever `lastSentAt ≤ t` (true in every monotone trace). -/
def schedule (cfg : Config) (t : Nat) (s : SessionState) : SessionState :=
  if s.timer ≠ none ∨ s.stopped then s
  else { s with timer := some (t + (cfg.updateInterval - (t - s.lastSentAt))) }

/-- `doFlush` (lines 190-211).  When `sendOrEdit` starts no transport call
(stopped, or content unchanged), the awaited promise resolves with no
intervening suspension point that any other event could use, so the
`finally` (line 205) and the pending-update re-schedule (lines 207-210)
are folded into the same step.  When a call does start, the session stays
`inFlight` until the matching `Ev.complete` event. -/
def doFlush (cfg : Config) (t : Nat) (s : SessionState) :
    SessionState × Option Call :=
  if s.stopped then (s, none)
  else
    let s1 := { s with timer := none }
    if s1.inFlight then ({ s1 with pendingUpdate := true }, none)
    else
      let content := buildMessage s1.thinkingText s1.activeTools s1.completedTools
        cfg.toolDisplay cfg.maxLength
      let s2 := { s1 with inFlight := true }
      match sendOrEdit t s2 content with
      | (s3, some c) => (s3, some c)
      | (s3, none) =>
        let s4 := { s3 with inFlight := false }
        if s4.pendingUpdate then
          (schedule cfg t { s4 with pendingUpdate := false }, none)
        else (s4, none)

/-- `triggerUpdate` (lines 222-234).  The JS guard
`Date.now() - lastSentAt >= updateInterval` is the integer inequality
`lastSentAt + updateInterval ≤ now`. -/
def triggerUpdate (cfg : Config) (t : Nat) (s : SessionState) :
    SessionState × Option Call :=
  if s.stopped then (s, none)
  else if s.inFlight then (schedule cfg t { s with pendingUpdate := true }, none)
  else if s.timer = none ∧ s.lastSentAt + cfg.updateInterval ≤ t then
    doFlush cfg t s
  else (schedule cfg t s, none)

/-- Resolution of the oldest outstanding delivery call: the remainder of
`sendOrEdit` (line 177 on create success, the swallowed catch of lines
183-187 on failure), then the `finally` of line 205 and the
pending-update handling of lines 207-210 in `doFlush`. -/
def completeDelivery (cfg : Config) (t : Nat) (s : SessionState)
    (res : DeliveryResult) : SessionState :=
  match s.outstanding with
  | [] => s
  | c :: rest =>
    let s1 := { s with outstanding := rest }
    let s2 := match res with
      | DeliveryResult.success mid =>
        match c.op with
        | TransportOp.create _ => { s1 with messageId := some mid }
        | _ => s1
      | DeliveryResult.failure => s1
    let s3 := { s2 with inFlight := false }
    if s3.pendingUpdate then schedule cfg t { s3 with pendingUpdate := false }
    else s3

/-- The generated default summary of `collapse` (lines 278-280). -/
def collapseDefaultText (n : Nat) : String :=
  "🧠 <b>Thinking complete</b> — " ++ toString n ++ " tool"
    ++ (if n ≠ 1 then "s" else "") ++ " used"

/-- The events that can reach a session: the public methods of the
returned `ThinkingUpdater` (lines 236-307), the firing of the armed
timeout (lines 216-219), and the resolution of an outstanding delivery
call. -/
inductive Ev where
  | start
  | update (text : String)
  | toolStart (id name : String) (args : Option (List (String × JsVal)))
  | toolEnd (id : String) (failed : Bool)
  | flush
  | stop
  | deleteMsg
  | collapse (summary : Option String)
  | timerFire
  | complete (res : DeliveryResult)
deriving DecidableEq

/-- One atomic step of the session at time `t`.  Non-enabled events
(`timerFire` with no due timer, `complete` with nothing outstanding) are
no-ops. -/
def step (cfg : Config) (t : Nat) (ev : Ev) (s : SessionState) :
    SessionState × Option Call :=
  match ev with
  | Ev.start => triggerUpdate cfg t s
  | Ev.update text => triggerUpdate cfg t { s with thinkingText := some text }
  | Ev.toolStart id name args =>
    triggerUpdate cfg t
      { s with activeTools :=
          mapSet s.activeTools id { name := name, args := args, startedAt := t } }
  | Ev.toolEnd id failed =>
    match mapGet s.activeTools id with
    | some entry =>
      triggerUpdate cfg t
        { s with activeTools := mapDelete s.activeTools id,
                 completedTools := s.completedTools ++
                   [{ name := entry.name, args := entry.args,
                      startedAt := entry.startedAt, failed := failed,
                      duration := t - entry.startedAt }] }
    | none => triggerUpdate cfg t s
  | Ev.flush => doFlush cfg t s
  | Ev.stop => ({ s with stopped := true, timer := none }, none)
  | Ev.deleteMsg =>
    let s1 := { s with stopped := true, timer := none }
    match s1.messageId with
    | some m =>
      ({ s1 with messageId := none }, some ⟨t, TransportOp.remove m, CallSource.deleteCall⟩)
    | none => (s1, none)
  | Ev.collapse summary =>
    let s1 := { s with stopped := true, timer := none }
    match s1.messageId with
    | none => (s1, none)
    | some m =>
      let text := match summary with
        | some str =>
          if str = "" then collapseDefaultText s1.completedTools.length else str
        | none => collapseDefaultText s1.completedTools.length
      (s1, some ⟨t, TransportOp.edit m text, CallSource.collapseEdit⟩)
  | Ev.timerFire =>
    match s.timer with
    | some d => if d ≤ t then doFlush cfg t { s with timer := none } else (s, none)
    | none => (s, none)
  | Ev.complete res => (completeDelivery cfg t s res, none)

/-- Run a timestamped event list, collecting every emitted transport call
in order. -/
def runAux (cfg : Config) (s : SessionState) (acc : List Call) :
    List (Nat × Ev) → SessionState × List Call
  | [] => (s, acc)
  | (t, ev) :: rest =>
    let r := step cfg t ev s
    runAux cfg r.1 (acc ++ r.2.toList) rest

def runEvents (cfg : Config) (evs : List (Nat × Ev)) : SessionState × List Call :=
  runAux cfg initState [] evs

/-- Is a call a delivery-cycle call (as opposed to the one-shot edit of
`collapse` or the `deleteMessage` of `delete`)? -/
def isDeliveryCall (c : Call) : Bool :=
  match c.source with
  | CallSource.deliveryCycle => true
  | _ => false

/-- Start times of the delivery-cycle calls of a call list, in emission
order. -/
def deliveryTimes (calls : List Call) : List Nat :=
  (calls.filter isDeliveryCall).map Call.time

/-! ## Invariants -/

/-- Single-flight bookkeeping invariant: the session is `inFlight`
exactly while a delivery-cycle transport call is outstanding, and never
more than one is. -/
def InvF (s : SessionState) : Prop :=
  (s.inFlight = true ↔ s.outstanding ≠ []) ∧ s.outstanding.length ≤ 1

/-- Successive elements are at least `i` apart. -/
def Spaced (i : Nat) (times : List Nat) : Prop :=
  List.Chain' (fun a b => a + i ≤ b) times

/-- Spacing invariant at current time `t`, where `times` are the start
times of the delivery-cycle calls emitted so far: the last delivery was
not in the future, an armed timer never fires earlier than one interval
after the last delivery, and the call times so far are spaced. -/
def Inv3 (cfg : Config) (t : Nat) (s : SessionState) (times : List Nat) : Prop :=
  s.lastSentAt ≤ t ∧
  (∀ d, s.timer = some d → s.lastSentAt + cfg.updateInterval ≤ d) ∧
  Spaced cfg.updateInterval times ∧
  (∀ x, times.getLast? = some x → x ≤ s.lastSentAt)

/-! ## Concrete sessions used as witnesses and counterexamples -/

/-- An updater configured with every optional field absent: update
interval 800 ms, max length 3800, tool display and args enabled. -/
def emptyToolDisplay : ToolDisplayConfig :=
  { enabled := none, mode := none, showArgs := none, maxArgsLength := none }

def emptyThinkingConfig : ThinkingConfig :=
  { enabled := none, mode := none, updateInterval := none, maxLength := none,
    completionMode := none }

def defaultConfig : Config :=
  { thinkingConfig := emptyThinkingConfig, toolDisplay := emptyToolDisplay }

/-- A session with one delivery call in flight: `update "a"` at t = 1000
started a create immediately (0 = initial `lastSentAt`, so the interval
guard passes). -/
def wState : SessionState :=
  (runEvents defaultConfig [(1000, Ev.update "a")]).1

/-- The transport call started by `wState`'s history. -/
def wCall : Call :=
  ⟨1000, TransportOp.create "🧠 <b>Thinking</b>\n\n<blockquote>a</blockquote>",
   CallSource.deliveryCycle⟩

/-- A session that was stopped before anything was delivered. -/
def wStopped : SessionState :=
  (runEvents defaultConfig [(0, Ev.stop)]).1

/-- An idle session whose last delivered content is exactly what the
current (empty) state renders to: the placeholder text. -/
def wDedupeState : SessionState :=
  { initState with lastSentContent := "🧠 <b>Thinking…</b>" }

/-- Delivery fails, then a later flush presents identical content. -/
def failRetryTrace : List (Nat × Ev) :=
  [(1000, Ev.update "x"),
   (1001, Ev.complete DeliveryResult.failure),
   (2000, Ev.flush)]

/-- A delivery at t = 1000, then a changed update and a `flush` at
t = 1100, well inside the 800 ms interval. -/
def flushBypassTrace : List (Nat × Ev) :=
  [(1000, Ev.update "a"),
   (1001, Ev.complete (DeliveryResult.success 1)),
   (1100, Ev.update "b"),
   (1100, Ev.flush)]

/-- `stop()`, then further mutating calls. -/
def afterStopTrace : List (Nat × Ev) :=
  [(0, Ev.stop), (5, Ev.update "hi"), (6, Ev.toolStart "t1" "read" none)]

/-- A monotone, flush-free trace used to witness the amended spacing
theorem: two deliveries 800 ms apart. -/
def spacedTrace : List (Nat × Ev) :=
  [(1000, Ev.update "a"),
   (1001, Ev.complete (DeliveryResult.success 1)),
   (1100, Ev.update "b"),
   (1800, Ev.timerFire)]

/-! ## Frame lemmas -/

theorem schedule_frame (cfg : Config) (t : Nat) (s : SessionState) :
    (schedule cfg t s).messageId = s.messageId ∧
    (schedule cfg t s).thinkingText = s.thinkingText ∧
    (schedule cfg t s).activeTools = s.activeTools ∧
    (schedule cfg t s).completedTools = s.completedTools ∧
    (schedule cfg t s).lastSentContent = s.lastSentContent ∧
    (schedule cfg t s).lastSentAt = s.lastSentAt ∧
    (schedule cfg t s).inFlight = s.inFlight ∧
    (schedule cfg t s).stopped = s.stopped ∧
    (schedule cfg t s).pendingUpdate = s.pendingUpdate ∧
    (schedule cfg t s).outstanding = s.outstanding := by
  unfold schedule
  split <;> simp

theorem doFlush_frame (cfg : Config) (t : Nat) (s : SessionState) :
    (doFlush cfg t s).1.messageId = s.messageId ∧
    (doFlush cfg t s).1.thinkingText = s.thinkingText ∧
    (doFlush cfg t s).1.activeTools = s.activeTools ∧
    (doFlush cfg t s).1.completedTools = s.completedTools ∧
    (doFlush cfg t s).1.stopped = s.stopped := by
  simp only [doFlush, sendOrEdit]
  split
  · simp
  · split
    · simp
    · split
      next x s3 c heq =>
        split at heq
        · simp at heq
        · injection heq with h1 h2
          subst h1
          simp
      next x s3 heq =>
        split at heq
        · injection heq with h1 h2
          subst h1
          split
          · simp [schedule_frame]
          · simp
        · simp at heq

theorem triggerUpdate_frame (cfg : Config) (t : Nat) (s : SessionState) :
    (triggerUpdate cfg t s).1.messageId = s.messageId ∧
    (triggerUpdate cfg t s).1.thinkingText = s.thinkingText ∧
    (triggerUpdate cfg t s).1.activeTools = s.activeTools ∧
    (triggerUpdate cfg t s).1.completedTools = s.completedTools ∧
    (triggerUpdate cfg t s).1.stopped = s.stopped := by
  unfold triggerUpdate
  split
  · simp
  · split
    · simp [schedule_frame]
    · split
      · exact doFlush_frame cfg t s
      · simp [schedule_frame]

theorem triggerUpdate_stopped (cfg : Config) (t : Nat) (s : SessionState)
    (h : s.stopped = true) : triggerUpdate cfg t s = (s, none) := by
  simp [triggerUpdate, h]

theorem doFlush_stopped (cfg : Config) (t : Nat) (s : SessionState)
    (h : s.stopped = true) : doFlush cfg t s = (s, none) := by
  simp [doFlush, h]

theorem deliveryTimes_nil : deliveryTimes [] = [] := rfl

theorem deliveryTimes_append (a b : List Call) :
    deliveryTimes (a ++ b) = deliveryTimes a ++ deliveryTimes b := by
  simp [deliveryTimes, List.filter_append]

theorem deliveryTimes_deliveryCycle (t : Nat) (op : TransportOp) :
    deliveryTimes [⟨t, op, CallSource.deliveryCycle⟩] = [t] := rfl

theorem deliveryTimes_deleteCall (t : Nat) (op : TransportOp) :
    deliveryTimes [⟨t, op, CallSource.deleteCall⟩] = [] := rfl

theorem deliveryTimes_collapseEdit (t : Nat) (op : TransportOp) :
    deliveryTimes [⟨t, op, CallSource.collapseEdit⟩] = [] := rfl

/-! ## Single-flight invariant -/

theorem invF_init : InvF initState := by
  constructor <;> simp [initState, InvF]

theorem invF_schedule (cfg : Config) (t : Nat) (s : SessionState)
    (h : InvF s) : InvF (schedule cfg t s) := by
  unfold schedule
  split
  · exact h
  · exact h

theorem invF_doFlush (cfg : Config) (t : Nat) (s : SessionState)
    (h : InvF s) : InvF (doFlush cfg t s).1 := by
  obtain ⟨hiff, hlen⟩ := h
  simp only [doFlush, sendOrEdit]
  split
  · exact ⟨hiff, hlen⟩
  · split
    next hf => exact ⟨hiff, hlen⟩
    next hf =>
      have hout : s.outstanding = [] := by
        rcases ho : s.outstanding with _ | ⟨c, rest⟩
        · rfl
        · exact absurd (hiff.mpr (by simp [ho])) hf
      split
      next x s3 c heq =>
        split at heq
        · simp at heq
        · injection heq with h1 h2
          subst h1
          exact ⟨by simp [hout], by simp [hout]⟩
      next x s3 heq =>
        split at heq
        · injection heq with h1 h2
          subst h1
          split
          · exact invF_schedule cfg t _ ⟨by simp [hout], by simp [hout]⟩
          · exact ⟨by simp [hout], by simp [hout]⟩
        · simp at heq

theorem invF_triggerUpdate (cfg : Config) (t : Nat) (s : SessionState)
    (h : InvF s) : InvF (triggerUpdate cfg t s).1 := by
  unfold triggerUpdate
  split
  · exact h
  · split
    · exact invF_schedule cfg t _ h
    · split
      · exact invF_doFlush cfg t s h
      · exact invF_schedule cfg t s h

theorem invF_completeDelivery (cfg : Config) (t : Nat) (s : SessionState)
    (res : DeliveryResult) (h : InvF s) : InvF (completeDelivery cfg t s res) := by
  obtain ⟨hiff, hlen⟩ := h
  simp only [completeDelivery]
  split
  next => exact ⟨hiff, hlen⟩
  next c rest hout =>
    have hrest : rest = [] := by
      rw [hout] at hlen
      cases rest with
      | nil => rfl
      | cons a l =>
        exfalso
        simp [List.length_cons] at hlen
    subst hrest
    cases res with
    | success mid =>
      cases hcop : c.op <;> simp only [hcop] <;> split <;>
        first
          | (apply invF_schedule; constructor <;> simp)
          | (constructor <;> simp)
    | failure =>
      simp only []
      split <;>
        first
          | (apply invF_schedule; constructor <;> simp)
          | (constructor <;> simp)

theorem invF_step (cfg : Config) (t : Nat) (ev : Ev) (s : SessionState)
    (h : InvF s) : InvF (step cfg t ev s).1 := by
  cases ev with
  | start => exact invF_triggerUpdate cfg t s h
  | update text => exact invF_triggerUpdate cfg t _ h
  | toolStart id name args => exact invF_triggerUpdate cfg t _ h
  | toolEnd id failed =>
    simp only [step]
    split
    · exact invF_triggerUpdate cfg t _ h
    · exact invF_triggerUpdate cfg t s h
  | flush => exact invF_doFlush cfg t s h
  | stop => exact h
  | deleteMsg =>
    simp only [step]
    split
    · exact h
    · exact h
  | collapse summary =>
    simp only [step]
    split
    · exact h
    · exact h
  | timerFire =>
    simp only [step]
    split
    · split
      · exact invF_doFlush cfg t _ h
      · exact h
    · exact h
  | complete res => exact invF_completeDelivery cfg t s res h

theorem invF_runAux (cfg : Config) :
    ∀ (evs : List (Nat × Ev)) (s : SessionState) (acc : List Call),
      InvF s → InvF (runAux cfg s acc evs).1
  | [], _, _, h => h
  | (t, ev) :: rest, s, acc, h =>
    invF_runAux cfg rest (step cfg t ev s).1 (acc ++ (step cfg t ev s).2.toList)
      (invF_step cfg t ev s h)

/-! ## Spacing invariant -/

theorem inv3_schedule (cfg : Config) (t : Nat) (s : SessionState) (times : List Nat)
    (h : Inv3 cfg t s times) : Inv3 cfg t (schedule cfg t s) times := by
  obtain ⟨h1, h2, h3, h4⟩ := h
  unfold schedule
  split
  · exact ⟨h1, h2, h3, h4⟩
  · refine ⟨h1, ?_, h3, h4⟩
    intro d hd
    simp only [Option.some.injEq] at hd
    show s.lastSentAt + cfg.updateInterval ≤ d
    omega

theorem inv3_doFlush (cfg : Config) (t : Nat) (s : SessionState) (times : List Nat)
    (h : Inv3 cfg t s times) (hsp : s.lastSentAt + cfg.updateInterval ≤ t) :
    Inv3 cfg t (doFlush cfg t s).1
      (times ++ deliveryTimes (doFlush cfg t s).2.toList) := by
  obtain ⟨h1, h2, h3, h4⟩ := h
  simp only [doFlush, sendOrEdit]
  split
  · simp only [Option.toList_none, deliveryTimes_nil, List.append_nil]
    exact ⟨h1, h2, h3, h4⟩
  · split
    · simp only [Option.toList_none, deliveryTimes_nil, List.append_nil]
      refine ⟨h1, ?_, h3, h4⟩
      intro d hd
      simp at hd
    · split
      next x s3 c heq =>
        split at heq
        · simp at heq
        · injection heq with hA hB
          subst hA
          injection hB with hB
          subst hB
          simp only [Option.toList_some, deliveryTimes_deliveryCycle]
          refine ⟨le_refl t, ?_, ?_, ?_⟩
          · intro d hd
            simp at hd
          · refine List.chain'_append.mpr ⟨h3, List.chain'_singleton _, ?_⟩
            intro x hx y hy
            simp only [List.head?_cons, Option.mem_def, Option.some.injEq] at hy
            subst hy
            have hxl := h4 x (Option.mem_def.mp hx)
            omega
          · intro x hx
            rw [List.getLast?_concat] at hx
            injection hx with hx
            show x ≤ t
            omega
      next x s3 heq =>
        split at heq
        · injection heq with hA hB
          subst hA
          split
          · simp only [Option.toList_none, deliveryTimes_nil, List.append_nil]
            apply inv3_schedule
            refine ⟨h1, ?_, h3, h4⟩
            intro d hd
            simp at hd
          · simp only [Option.toList_none, deliveryTimes_nil, List.append_nil]
            refine ⟨h1, ?_, h3, h4⟩
            intro d hd
            simp at hd
        · simp at heq

theorem inv3_triggerUpdate (cfg : Config) (t : Nat) (s : SessionState) (times : List Nat)
    (h : Inv3 cfg t s times) :
    Inv3 cfg t (triggerUpdate cfg t s).1
      (times ++ deliveryTimes (triggerUpdate cfg t s).2.toList) := by
  obtain ⟨h1, h2, h3, h4⟩ := h
  unfold triggerUpdate
  split
  · simp only [Option.toList_none, deliveryTimes_nil, List.append_nil]
    exact ⟨h1, h2, h3, h4⟩
  · split
    · simp only [Option.toList_none, deliveryTimes_nil, List.append_nil]
      exact inv3_schedule cfg t _ times ⟨h1, h2, h3, h4⟩
    · split
      next hc => exact inv3_doFlush cfg t s times ⟨h1, h2, h3, h4⟩ hc.2
      next hc =>
        simp only [Option.toList_none, deliveryTimes_nil, List.append_nil]
        exact inv3_schedule cfg t s times ⟨h1, h2, h3, h4⟩

theorem inv3_completeDelivery (cfg : Config) (t : Nat) (s : SessionState)
    (times : List Nat) (res : DeliveryResult) (h : Inv3 cfg t s times) :
    Inv3 cfg t (completeDelivery cfg t s res) times := by
  obtain ⟨h1, h2, h3, h4⟩ := h
  simp only [completeDelivery]
  split
  next => exact ⟨h1, h2, h3, h4⟩
  next c rest hout =>
    cases res with
    | success mid =>
      cases hcop : c.op <;> simp only [hcop] <;> split <;>
        first
          | (apply inv3_schedule; exact ⟨h1, h2, h3, h4⟩)
          | exact ⟨h1, h2, h3, h4⟩
    | failure =>
      simp only []
      split <;>
        first
          | (apply inv3_schedule; exact ⟨h1, h2, h3, h4⟩)
          | exact ⟨h1, h2, h3, h4⟩

theorem inv3_step (cfg : Config) (t0 t : Nat) (ev : Ev) (s : SessionState)
    (times : List Nat) (hle : t0 ≤ t) (hev : ev ≠ Ev.flush)
    (h : Inv3 cfg t0 s times) :
    Inv3 cfg t (step cfg t ev s).1
      (times ++ deliveryTimes (step cfg t ev s).2.toList) := by
  have h' : Inv3 cfg t s times := ⟨le_trans h.1 hle, h.2.1, h.2.2.1, h.2.2.2⟩
  obtain ⟨h1, h2, h3, h4⟩ := h'
  cases ev with
  | start => exact inv3_triggerUpdate cfg t s times ⟨h1, h2, h3, h4⟩
  | update text => exact inv3_triggerUpdate cfg t _ times ⟨h1, h2, h3, h4⟩
  | toolStart id name args => exact inv3_triggerUpdate cfg t _ times ⟨h1, h2, h3, h4⟩
  | toolEnd id failed =>
    simp only [step]
    split
    · exact inv3_triggerUpdate cfg t _ times ⟨h1, h2, h3, h4⟩
    · exact inv3_triggerUpdate cfg t s times ⟨h1, h2, h3, h4⟩
  | flush => exact absurd rfl hev
  | stop =>
    simp only [step, Option.toList_none, deliveryTimes_nil, List.append_nil]
    refine ⟨h1, ?_, h3, h4⟩
    intro d hd
    simp at hd
  | deleteMsg =>
    simp only [step]
    split
    · simp only [Option.toList_some, deliveryTimes_deleteCall, List.append_nil]
      refine ⟨h1, ?_, h3, h4⟩
      intro d hd
      simp at hd
    · simp only [Option.toList_none, deliveryTimes_nil, List.append_nil]
      refine ⟨h1, ?_, h3, h4⟩
      intro d hd
      simp at hd
  | collapse summary =>
    simp only [step]
    split
    · simp only [Option.toList_none, deliveryTimes_nil, List.append_nil]
      refine ⟨h1, ?_, h3, h4⟩
      intro d hd
      simp at hd
    · simp only [Option.toList_some, deliveryTimes_collapseEdit, List.append_nil]
      refine ⟨h1, ?_, h3, h4⟩
      intro d hd
      simp at hd
  | timerFire =>
    simp only [step]
    split
    next d hd =>
      split
      next hdt =>
        have hsp : s.lastSentAt + cfg.updateInterval ≤ t := le_trans (h2 d hd) hdt
        refine inv3_doFlush cfg t _ times ⟨h1, ?_, h3, h4⟩ hsp
        intro d2 hd2
        simp at hd2
      next =>
        simp only [Option.toList_none, deliveryTimes_nil, List.append_nil]
        exact ⟨h1, h2, h3, h4⟩
    next =>
      simp only [Option.toList_none, deliveryTimes_nil, List.append_nil]
      exact ⟨h1, h2, h3, h4⟩
  | complete res =>
    simp only [step, Option.toList_none, deliveryTimes_nil, List.append_nil]
    exact inv3_completeDelivery cfg t s times res ⟨h1, h2, h3, h4⟩

theorem inv3_runAux (cfg : Config) :
    ∀ (evs : List (Nat × Ev)) (s : SessionState) (acc : List Call) (t0 : Nat),
      Inv3 cfg t0 s (deliveryTimes acc) →
      List.Chain' (fun a b => a ≤ b) (t0 :: evs.map Prod.fst) →
      (∀ p ∈ evs, p.2 ≠ Ev.flush) →
      ∃ t1, Inv3 cfg t1 (runAux cfg s acc evs).1 (deliveryTimes (runAux cfg s acc evs).2)
  | [], _, _, t0, h, _, _ => ⟨t0, h⟩
  | (t, ev) :: rest, s, acc, t0, h, hchain, hnf => by
    rw [List.map_cons] at hchain
    have hle : t0 ≤ t := (List.chain'_cons.mp hchain).1
    have hchain2 : List.Chain' (fun a b => a ≤ b) (t :: rest.map Prod.fst) :=
      (List.chain'_cons.mp hchain).2
    have hstep := inv3_step cfg t0 t ev s (deliveryTimes acc) hle
      (hnf (t, ev) (List.mem_cons_self _ _)) h
    exact inv3_runAux cfg rest (step cfg t ev s).1 (acc ++ (step cfg t ev s).2.toList) t
      (by rw [deliveryTimes_append]; exact hstep) hchain2
      (fun p hp => hnf p (List.mem_cons_of_mem _ hp))

theorem doFlush_dedupe (cfg : Config) (t : Nat) (s : SessionState)
    (h2 : buildMessage s.thinkingText s.activeTools s.completedTools
      cfg.toolDisplay cfg.maxLength = s.lastSentContent) :
    (doFlush cfg t s).2 = none ∧
    (doFlush cfg t s).1.messageId = s.messageId ∧
    (doFlush cfg t s).1.lastSentContent = s.lastSentContent ∧
    (doFlush cfg t s).1.lastSentAt = s.lastSentAt := by
  simp only [doFlush, sendOrEdit]
  split
  · exact ⟨rfl, rfl, rfl, rfl⟩
  · split
    · exact ⟨rfl, rfl, rfl, rfl⟩
    · split
      next x s3 c heq =>
        rw [if_pos (Or.inr h2)] at heq
        simp at heq
      next x s3 heq =>
        rw [if_pos (Or.inr h2)] at heq
        injection heq with hA hB
        subst hA
        split
        · have hf := schedule_frame cfg t
            { s with timer := none, inFlight := false, pendingUpdate := false }
          exact ⟨rfl, hf.1, hf.2.2.2.2.1, hf.2.2.2.2.2.1⟩
        · exact ⟨rfl, rfl, rfl, rfl⟩

/-! ## Claims -/

/-- C5: if `flush` is called on a non-terminal session and the rendered
output of the current state equals the last successfully delivered
content, then no transport call occurs and the delivery state
(`messageId`, `lastSentContent`, `lastSentAt`) is unchanged. -/
theorem c5_flush_dedupe_no_call (cfg : Config) (t : Nat) (s : SessionState)
    (h1 : s.stopped = false)
    (h2 : buildMessage s.thinkingText s.activeTools s.completedTools
      cfg.toolDisplay cfg.maxLength = s.lastSentContent) :
    (step cfg t Ev.flush s).2 = none ∧
    (step cfg t Ev.flush s).1.messageId = s.messageId ∧
    (step cfg t Ev.flush s).1.lastSentContent = s.lastSentContent ∧
    (step cfg t Ev.flush s).1.lastSentAt = s.lastSentAt :=
  doFlush_dedupe cfg t s h2

/-- C6: `toolEnd` on an id that is not active leaves both the active-tool
map and the completed-tool sequence unchanged. -/
theorem c6_toolEnd_unknown_id (cfg : Config) (t : Nat) (s : SessionState)
    (id : String) (failed : Bool) (h : mapGet s.activeTools id = none) :
    (step cfg t (Ev.toolEnd id failed) s).1.activeTools = s.activeTools ∧
    (step cfg t (Ev.toolEnd id failed) s).1.completedTools = s.completedTools := by
  simp only [step, h]
  exact ⟨(triggerUpdate_frame cfg t s).2.2.1, (triggerUpdate_frame cfg t s).2.2.2.1⟩

/-- C7: the rendered tool section is exactly the last-10 window of the
completed entries, in completion order (oldest of the window first),
followed by all active entries in insertion order; at most 10 completed
lines ever appear, and the window is a suffix of the full completed
sequence. -/
theorem c7_tool_section_window (toolDisplay : ToolDisplayConfig)
    (activeTools : List (String × ToolEntry))
    (completedTools : List CompletedToolEntry) :
    toolLines toolDisplay activeTools completedTools
      = (completedTools.drop (completedTools.length - 10)).map (completedLine toolDisplay)
        ++ activeTools.map (fun p => activeLine toolDisplay p.2) ∧
    ((completedTools.drop (completedTools.length - 10)).map
      (completedLine toolDisplay)).length ≤ 10 ∧
    completedTools.drop (completedTools.length - 10) <:+ completedTools := by
  refine ⟨rfl, ?_, List.drop_suffix _ _⟩
  simp only [List.length_map, List.length_drop]
  omega

/-- C10: `collapse` on a session that never successfully created a remote
message performs no transport call at all (the summary is dropped) while
still making the session terminal (stopped, timer cancelled). -/
theorem c10_collapse_without_message (cfg : Config) (t : Nat) (s : SessionState)
    (summary : Option String) (h : s.messageId = none) :
    (step cfg t (Ev.collapse summary) s).2 = none ∧
    (step cfg t (Ev.collapse summary) s).1
      = { s with stopped := true, timer := none } := by
  simp [step, h]

/-- C8: a thinking text longer than `maxLength - 200` characters is
rendered as an ellipsis marker followed by exactly the trailing
`maxLength - 200` characters (for any configuration with
`maxLength > 200`, which includes the default 3800). -/
theorem c8_thinking_tail_truncation (maxLength : Nat) (text : String)
    (h200 : 200 < maxLength) (hlen : maxLength - 200 < text.length) :
    trimThinking maxLength text
      = "…" ++ String.mk (text.data.drop (text.length - (maxLength - 200))) ∧
    (String.mk (text.data.drop (text.length - (maxLength - 200)))).length
      = maxLength - 200 := by
  constructor
  · have hc : (text.length : Int) > (maxLength : Int) - 200 := by omega
    have hk : (-((maxLength : Int) - 200)) < 0 := by omega
    have hna : (-((maxLength : Int) - 200)).natAbs = maxLength - 200 := by omega
    simp only [trimThinking, jsSliceFrom]
    rw [if_pos hc, if_pos hk, hna]
  · have hdl : text.length = text.data.length := rfl
    simp only [String.mk_length, List.length_drop]
    omega

/-- C9: the rendered message never exceeds 4096 characters, and whenever
the uncapped composition exceeds 4096 the result is exactly its first
4093 characters followed by an ellipsis marker. -/
theorem c9_hard_cap (thinkingText : Option String)
    (activeTools : List (String × ToolEntry))
    (completedTools : List CompletedToolEntry)
    (toolDisplay : ToolDisplayConfig) (maxLength : Nat) :
    (buildMessage thinkingText activeTools completedTools toolDisplay maxLength).length
      ≤ 4096 ∧
    (4096 < (rawMessage thinkingText activeTools completedTools toolDisplay maxLength).length →
      buildMessage thinkingText activeTools completedTools toolDisplay maxLength
        = jsSliceTo (rawMessage thinkingText activeTools completedTools toolDisplay maxLength)
            4093 ++ "…") := by
  constructor
  · by_cases h :
      4096 < (rawMessage thinkingText activeTools completedTools toolDisplay maxLength).length
    · simp only [buildMessage, if_pos h, jsSliceTo]
      rw [String.length_append]
      have h1 : (String.mk ((rawMessage thinkingText activeTools completedTools
          toolDisplay maxLength).data.take 4093)).length
          = min 4093 (rawMessage thinkingText activeTools completedTools
              toolDisplay maxLength).data.length := by
        simp [List.length_take]
      have h2 : ("…" : String).length = 1 := rfl
      rw [h1, h2]
      omega
    · simp only [buildMessage, if_neg h]
      omega
  · intro h
    simp only [buildMessage, if_pos h]

/-- C1 (amended): when an outstanding delivery call resolves with
failure, the failure is absorbed inside the Sink adapter: the resolution
step emits no transport call, raises nothing, and leaves the message
identifier, delivery fields (`lastSentContent`, `lastSentAt` — which were
already set when the call started) and accumulator state unchanged,
clearing only the in-flight bookkeeping.  Because `lastSentContent` was
set eagerly at call start and is not reverted here, a later cycle with
identical content is deduplicated rather than retried. -/
theorem c1_failure_absorbed_amended (cfg : Config) (t : Nat) (s : SessionState)
    (c : Call) (rest : List Call) (h : s.outstanding = c :: rest) :
    (step cfg t (Ev.complete DeliveryResult.failure) s).2 = none ∧
    (step cfg t (Ev.complete DeliveryResult.failure) s).1.messageId = s.messageId ∧
    (step cfg t (Ev.complete DeliveryResult.failure) s).1.lastSentContent = s.lastSentContent ∧
    (step cfg t (Ev.complete DeliveryResult.failure) s).1.lastSentAt = s.lastSentAt ∧
    (step cfg t (Ev.complete DeliveryResult.failure) s).1.thinkingText = s.thinkingText ∧
    (step cfg t (Ev.complete DeliveryResult.failure) s).1.activeTools = s.activeTools ∧
    (step cfg t (Ev.complete DeliveryResult.failure) s).1.completedTools = s.completedTools ∧
    (step cfg t (Ev.complete DeliveryResult.failure) s).1.inFlight = false ∧
    (step cfg t (Ev.complete DeliveryResult.failure) s).1.outstanding = rest := by
  suffices hS :
      (completeDelivery cfg t s DeliveryResult.failure).messageId = s.messageId ∧
      (completeDelivery cfg t s DeliveryResult.failure).lastSentContent = s.lastSentContent ∧
      (completeDelivery cfg t s DeliveryResult.failure).lastSentAt = s.lastSentAt ∧
      (completeDelivery cfg t s DeliveryResult.failure).thinkingText = s.thinkingText ∧
      (completeDelivery cfg t s DeliveryResult.failure).activeTools = s.activeTools ∧
      (completeDelivery cfg t s DeliveryResult.failure).completedTools = s.completedTools ∧
      (completeDelivery cfg t s DeliveryResult.failure).inFlight = false ∧
      (completeDelivery cfg t s DeliveryResult.failure).outstanding = rest by
    exact ⟨rfl, hS.1, hS.2.1, hS.2.2.1, hS.2.2.2.1, hS.2.2.2.2.1, hS.2.2.2.2.2.1,
      hS.2.2.2.2.2.2.1, hS.2.2.2.2.2.2.2⟩
  have hcd : completeDelivery cfg t s DeliveryResult.failure
      = if s.pendingUpdate = true then
          schedule cfg t { s with outstanding := rest, inFlight := false, pendingUpdate := false }
        else { s with outstanding := rest, inFlight := false } := by
    simp only [completeDelivery, h]
  rw [hcd]
  by_cases hp : s.pendingUpdate = true
  · rw [if_pos hp]
    have hf := schedule_frame cfg t
      { s with outstanding := rest, inFlight := false, pendingUpdate := false }
    exact ⟨hf.1, hf.2.2.2.2.1, hf.2.2.2.2.2.1, hf.2.1, hf.2.2.1, hf.2.2.2.1,
      hf.2.2.2.2.2.2.1, hf.2.2.2.2.2.2.2.2.2⟩
  · rw [if_neg hp]
    exact ⟨rfl, rfl, rfl, rfl, rfl, rfl, rfl, rfl⟩

/-- C4 (amended): once the session is terminal (`stopped`), every
subsequent `update`, `toolStart`, `toolEnd`, `start`, `flush` or timer
firing produces no transport activity and the session stays terminal;
the accumulator state itself, however, is still mutated by
`update`/`toolStart`/`toolEnd` (the stopped guard sits in
`triggerUpdate`, after the mutation). -/
theorem c4_terminal_no_transport_amended (cfg : Config) (t : Nat)
    (s : SessionState) (text id name : String)
    (args : Option (List (String × JsVal))) (failed : Bool)
    (h : s.stopped = true) :
    (step cfg t (Ev.update text) s).2 = none ∧
    (step cfg t (Ev.update text) s).1.stopped = true ∧
    (step cfg t (Ev.toolStart id name args) s).2 = none ∧
    (step cfg t (Ev.toolStart id name args) s).1.stopped = true ∧
    (step cfg t (Ev.toolEnd id failed) s).2 = none ∧
    (step cfg t (Ev.toolEnd id failed) s).1.stopped = true ∧
    (step cfg t Ev.start s).2 = none ∧
    (step cfg t Ev.start s).1.stopped = true ∧
    (step cfg t Ev.flush s).2 = none ∧
    (step cfg t Ev.flush s).1.stopped = true ∧
    (step cfg t Ev.timerFire s).2 = none ∧
    (step cfg t Ev.timerFire s).1.stopped = true := by
  have hu := triggerUpdate_stopped cfg t { s with thinkingText := some text } h
  have hts := triggerUpdate_stopped cfg t
    { s with activeTools := mapSet s.activeTools id ⟨name, args, t⟩ } h
  have hst := triggerUpdate_stopped cfg t s h
  have hdf := doFlush_stopped cfg t s h
  refine ⟨?_, ?_, ?_, ?_, ?_, ?_, ?_, ?_, ?_, ?_, ?_, ?_⟩
  · simp only [step, hu]
  · simp only [step, hu]; exact h
  · simp only [step, hts]
  · simp only [step, hts]; exact h
  · cases hmg : mapGet s.activeTools id with
    | some e =>
      have hte := triggerUpdate_stopped cfg t
        { s with activeTools := mapDelete s.activeTools id,
                 completedTools := s.completedTools ++
                   [⟨e.name, e.args, e.startedAt, failed, t - e.startedAt⟩] } h
      simp only [step, hmg, hte]
    | none => simp only [step, hmg, hst]
  · cases hmg : mapGet s.activeTools id with
    | some e =>
      have hte := triggerUpdate_stopped cfg t
        { s with activeTools := mapDelete s.activeTools id,
                 completedTools := s.completedTools ++
                   [⟨e.name, e.args, e.startedAt, failed, t - e.startedAt⟩] } h
      simp only [step, hmg, hte]; exact h
    | none => simp only [step, hmg, hst]; exact h
  · simp only [step, hst]
  · simp only [step, hst]; exact h
  · simp only [step, hdf]
  · simp only [step, hdf]; exact h
  · cases htm : s.timer with
    | some d =>
      have hdf2 := doFlush_stopped cfg t { s with timer := none } h
      simp only [step, htm]
      split
      · simp only [hdf2]
      · rfl
    | none => simp only [step, htm]
  · cases htm : s.timer with
    | some d =>
      have hdf2 := doFlush_stopped cfg t { s with timer := none } h
      simp only [step, htm]
      split
      · simp only [hdf2]; exact h
      · exact h
    | none => simp only [step, htm]; exact h

/-- C2: for every interleaving of events, at most one delivery-cycle
transport call is outstanding at any instant (the session is in flight
exactly while one is outstanding), and a trigger arriving while a
delivery is in flight starts no call — it only marks the pending
(coalesced) update. -/
theorem c2_single_flight :
    (∀ (cfg : Config) (evs : List (Nat × Ev)),
      (runEvents cfg evs).1.outstanding.length ≤ 1 ∧
      ((runEvents cfg evs).1.inFlight = true ↔ (runEvents cfg evs).1.outstanding ≠ [])) ∧
    (∀ (cfg : Config) (t : Nat) (s : SessionState) (text : String),
      s.stopped = false → s.inFlight = true →
        (step cfg t (Ev.update text) s).2 = none ∧
        (step cfg t (Ev.update text) s).1.pendingUpdate = true ∧
        (step cfg t (Ev.update text) s).1.outstanding = s.outstanding) := by
  constructor
  · intro cfg evs
    have h := invF_runAux cfg evs initState [] invF_init
    exact ⟨h.2, h.1⟩
  · intro cfg t s text h1 h2
    simp only [step, triggerUpdate]
    rw [if_neg (by simp [h1]), if_pos (by simp [h2])]
    have hf := schedule_frame cfg t
      { s with thinkingText := some text, pendingUpdate := true }
    exact ⟨rfl, hf.2.2.2.2.2.2.2.2.1, hf.2.2.2.2.2.2.2.2.2⟩

/-- C3 (amended): in every time-monotone trace that contains no `flush`
event, successive delivery-cycle transport calls are at least the
configured update interval apart.  (`flush` deliberately bypasses the
interval wait, which is why it must be excluded; the very first delivery
is governed by the initial `lastSentAt = 0`.) -/
theorem c3_min_spacing_amended (cfg : Config) (evs : List (Nat × Ev))
    (hmono : List.Chain' (fun a b => a ≤ b) (evs.map Prod.fst))
    (hnf : ∀ p ∈ evs, p.2 ≠ Ev.flush) :
    List.Chain' (fun a b => a + cfg.updateInterval ≤ b)
      (deliveryTimes (runEvents cfg evs).2) := by
  have h0 : Inv3 cfg 0 initState (deliveryTimes []) := by
    refine ⟨le_refl 0, ?_, List.chain'_nil, ?_⟩
    · intro d hd
      simp [initState] at hd
    · intro x hx
      simp [deliveryTimes_nil] at hx
  have hchain : List.Chain' (fun a b => a ≤ b) (0 :: evs.map Prod.fst) := by
    cases hm : evs.map Prod.fst with
    | nil => simp
    | cons a l => exact List.chain'_cons.mpr ⟨Nat.zero_le a, hm ▸ hmono⟩
  obtain ⟨t1, hinv⟩ := inv3_runAux cfg evs initState [] 0 h0 hchain hnf
  exact hinv.2.2.1

/-! ## Counterexamples -/

/-- C1 counterexample: after `update "x"` at t = 1000 starts a create
that FAILS at t = 1001, `lastSentContent` nevertheless holds the failed
content (it was set before the transport call, not reverted by the
failure), so the `flush` at t = 2000 — presenting identical content — is
deduplicated and attempts no transport call: the trace's only call is the
original failed create.  This refutes "lastSentContent is not updated on
failure, so a later cycle with identical content still retries". -/
theorem c1_counterexample :
    (runEvents defaultConfig failRetryTrace).2
      = [⟨1000, TransportOp.create "🧠 <b>Thinking</b>\n\n<blockquote>x</blockquote>",
          CallSource.deliveryCycle⟩] ∧
    (runEvents defaultConfig failRetryTrace).1.lastSentContent
      = "🧠 <b>Thinking</b>\n\n<blockquote>x</blockquote>" ∧
    (runEvents defaultConfig failRetryTrace).1.messageId = none :=
  ⟨rfl, rfl, rfl⟩

/-- C3 counterexample: a delivery at t = 1000 followed by `update "b"`
and `flush()` at t = 1100 yields two delivery calls only 100 ms apart,
far below the configured 800 ms interval, and neither is the very first
delivery's exception: `flush` bypasses the interval wait. -/
theorem c3_counterexample :
    deliveryTimes (runEvents defaultConfig flushBypassTrace).2 = [1000, 1100] ∧
    defaultConfig.updateInterval = 800 ∧
    ¬ List.Chain' (fun a b => a + defaultConfig.updateInterval ≤ b)
        (deliveryTimes (runEvents defaultConfig flushBypassTrace).2) :=
  ⟨rfl, rfl, by
    intro hch
    rw [show deliveryTimes (runEvents defaultConfig flushBypassTrace).2
        = [1000, 1100] from rfl] at hch
    rw [show defaultConfig.updateInterval = 800 from rfl] at hch
    have hle := (List.chain'_cons.mp hch).1
    omega⟩

/-- C4 counterexample: after `stop()` at t = 0, `update "hi"` still
replaces the thinking text and `toolStart` still inserts an active tool —
the accumulator state is mutated after the terminal transition (only
transport activity is suppressed: no call is emitted). -/
theorem c4_counterexample :
    initState.thinkingText = none ∧
    initState.activeTools = [] ∧
    (runEvents defaultConfig afterStopTrace).1.stopped = true ∧
    (runEvents defaultConfig afterStopTrace).1.thinkingText = some "hi" ∧
    (runEvents defaultConfig afterStopTrace).1.activeTools.length = 1 ∧
    (runEvents defaultConfig afterStopTrace).2 = [] :=
  ⟨rfl, rfl, rfl, rfl, rfl, rfl⟩

/-! ## Witnesses -/

theorem c1_failure_absorbed_amended_witness :
    wState.outstanding = [wCall] ∧
    ((step defaultConfig 1001 (Ev.complete DeliveryResult.failure) wState).2 = none ∧
     (step defaultConfig 1001 (Ev.complete DeliveryResult.failure) wState).1.messageId
       = wState.messageId ∧
     (step defaultConfig 1001 (Ev.complete DeliveryResult.failure) wState).1.lastSentContent
       = wState.lastSentContent ∧
     (step defaultConfig 1001 (Ev.complete DeliveryResult.failure) wState).1.lastSentAt
       = wState.lastSentAt ∧
     (step defaultConfig 1001 (Ev.complete DeliveryResult.failure) wState).1.thinkingText
       = wState.thinkingText ∧
     (step defaultConfig 1001 (Ev.complete DeliveryResult.failure) wState).1.activeTools
       = wState.activeTools ∧
     (step defaultConfig 1001 (Ev.complete DeliveryResult.failure) wState).1.completedTools
       = wState.completedTools ∧
     (step defaultConfig 1001 (Ev.complete DeliveryResult.failure) wState).1.inFlight = false ∧
     (step defaultConfig 1001 (Ev.complete DeliveryResult.failure) wState).1.outstanding = []) :=
  ⟨by decide,
   c1_failure_absorbed_amended defaultConfig 1001 wState wCall [] (by decide)⟩

theorem c2_single_flight_witness :
    wState.stopped = false ∧ wState.inFlight = true ∧
    ((step defaultConfig 1001 (Ev.update "b") wState).2 = none ∧
     (step defaultConfig 1001 (Ev.update "b") wState).1.pendingUpdate = true ∧
     (step defaultConfig 1001 (Ev.update "b") wState).1.outstanding = wState.outstanding) :=
  ⟨by decide, by decide,
   c2_single_flight.2 defaultConfig 1001 wState "b" (by decide) (by decide)⟩

theorem c3_min_spacing_amended_witness :
    List.Chain' (fun a b => a ≤ b) (spacedTrace.map Prod.fst) ∧
    (∀ p ∈ spacedTrace, p.2 ≠ Ev.flush) ∧
    List.Chain' (fun a b => a + defaultConfig.updateInterval ≤ b)
      (deliveryTimes (runEvents defaultConfig spacedTrace).2) := by
  have hmono : List.Chain' (fun a b => a ≤ b) (spacedTrace.map Prod.fst) := by
    rw [show spacedTrace.map Prod.fst = [1000, 1001, 1100, 1800] from rfl]
    exact List.chain'_cons.mpr ⟨by omega, List.chain'_cons.mpr ⟨by omega,
      List.chain'_cons.mpr ⟨by omega, List.chain'_singleton _⟩⟩⟩
  exact ⟨hmono, by decide,
    c3_min_spacing_amended defaultConfig spacedTrace hmono (by decide)⟩

theorem c4_terminal_no_transport_amended_witness :
    wStopped.stopped = true ∧
    ((step defaultConfig 7 (Ev.update "x") wStopped).2 = none ∧
     (step defaultConfig 7 (Ev.update "x") wStopped).1.stopped = true ∧
     (step defaultConfig 7 (Ev.toolStart "t1" "read" none) wStopped).2 = none ∧
     (step defaultConfig 7 (Ev.toolStart "t1" "read" none) wStopped).1.stopped = true ∧
     (step defaultConfig 7 (Ev.toolEnd "t1" false) wStopped).2 = none ∧
     (step defaultConfig 7 (Ev.toolEnd "t1" false) wStopped).1.stopped = true ∧
     (step defaultConfig 7 Ev.start wStopped).2 = none ∧
     (step defaultConfig 7 Ev.start wStopped).1.stopped = true ∧
     (step defaultConfig 7 Ev.flush wStopped).2 = none ∧
     (step defaultConfig 7 Ev.flush wStopped).1.stopped = true ∧
     (step defaultConfig 7 Ev.timerFire wStopped).2 = none ∧
     (step defaultConfig 7 Ev.timerFire wStopped).1.stopped = true) :=
  ⟨by decide,
   c4_terminal_no_transport_amended defaultConfig 7 wStopped "x" "t1" "read" none false
     (by decide)⟩

theorem c5_flush_dedupe_no_call_witness :
    wDedupeState.stopped = false ∧
    buildMessage wDedupeState.thinkingText wDedupeState.activeTools
      wDedupeState.completedTools defaultConfig.toolDisplay defaultConfig.maxLength
      = wDedupeState.lastSentContent ∧
    ((step defaultConfig 500 Ev.flush wDedupeState).2 = none ∧
     (step defaultConfig 500 Ev.flush wDedupeState).1.messageId = wDedupeState.messageId ∧
     (step defaultConfig 500 Ev.flush wDedupeState).1.lastSentContent
       = wDedupeState.lastSentContent ∧
     (step defaultConfig 500 Ev.flush wDedupeState).1.lastSentAt = wDedupeState.lastSentAt) :=
  ⟨by decide, by decide,
   c5_flush_dedupe_no_call defaultConfig 500 wDedupeState (by decide) (by decide)⟩

theorem c6_toolEnd_unknown_id_witness :
    mapGet initState.activeTools "zz" = none ∧
    ((step defaultConfig 9 (Ev.toolEnd "zz" true) initState).1.activeTools
       = initState.activeTools ∧
     (step defaultConfig 9 (Ev.toolEnd "zz" true) initState).1.completedTools
       = initState.completedTools) :=
  ⟨by decide, c6_toolEnd_unknown_id defaultConfig 9 initState "zz" true (by decide)⟩

theorem c8_thinking_tail_truncation_witness :
    200 < 3800 ∧
    3800 - 200 < (String.mk (List.replicate 5000 'a')).length ∧
    (trimThinking 3800 (String.mk (List.replicate 5000 'a'))
       = "…" ++ String.mk ((String.mk (List.replicate 5000 'a')).data.drop
           ((String.mk (List.replicate 5000 'a')).length - (3800 - 200))) ∧
     (String.mk ((String.mk (List.replicate 5000 'a')).data.drop
         ((String.mk (List.replicate 5000 'a')).length - (3800 - 200)))).length
       = 3800 - 200) := by
  have hL : (String.mk (List.replicate 5000 'a')).length = 5000 := by
    simp only [String.mk_length, List.length_replicate]
  exact ⟨by omega, by omega,
    c8_thinking_tail_truncation 3800 (String.mk (List.replicate 5000 'a'))
      (by omega) (by omega)⟩

theorem flatMap_escape_replicate_a (n : Nat) :
    (List.replicate n 'a').flatMap escapeHtmlChar = List.replicate n 'a' := by
  induction n with
  | zero => rfl
  | succ k ih =>
    rw [List.replicate_succ, List.flatMap_cons, ih]
    rfl

theorem rawMessage_thinking_only (td : ToolDisplayConfig) (maxLength : Nat)
    (s : String) (hne : s ≠ "") :
    rawMessage (some s) [] [] td maxLength
      = "🧠 <b>Thinking</b>" ++ "\n"
          ++ ("" ++ "\n"
            ++ ("<blockquote>" ++ escapeHtml (trimThinking maxLength s) ++ "</blockquote>")) := by
  have ht : thinkingLines maxLength (some s)
      = ["🧠 <b>Thinking</b>", "",
         "<blockquote>" ++ escapeHtml (trimThinking maxLength s) ++ "</blockquote>"] := by
    simp only [thinkingLines]
    rw [if_neg hne]
  simp only [rawMessage, ht]
  rw [if_neg (by simp), if_neg (by simp)]
  rfl

theorem c9_hard_cap_witness :
    4096 < (rawMessage (some (String.mk (List.replicate 4200 'a'))) [] []
      emptyToolDisplay 10000).length ∧
    ((buildMessage (some (String.mk (List.replicate 4200 'a'))) [] []
        emptyToolDisplay 10000).length ≤ 4096 ∧
     buildMessage (some (String.mk (List.replicate 4200 'a'))) [] []
        emptyToolDisplay 10000
       = jsSliceTo (rawMessage (some (String.mk (List.replicate 4200 'a'))) [] []
           emptyToolDisplay 10000) 4093 ++ "…") := by
  have hL : (String.mk (List.replicate 4200 'a')).length = 4200 := by
    simp only [String.mk_length, List.length_replicate]
  have hne : (String.mk (List.replicate 4200 'a')) ≠ "" := by
    intro he
    have h2 := congrArg String.length he
    rw [hL] at h2
    exact absurd h2 (by decide)
  have hesc : escapeHtml (String.mk (List.replicate 4200 'a'))
      = String.mk (List.replicate 4200 'a') := by
    simp only [escapeHtml]
    rw [flatMap_escape_replicate_a]
  have htrim : trimThinking 10000 (String.mk (List.replicate 4200 'a'))
      = String.mk (List.replicate 4200 'a') := by
    simp only [trimThinking]
    rw [if_neg (by rw [hL]; omega)]
  have hrawlen : (rawMessage (some (String.mk (List.replicate 4200 'a'))) [] []
      emptyToolDisplay 10000).length = 4244 := by
    rw [rawMessage_thinking_only emptyToolDisplay 10000 _ hne, htrim, hesc]
    rw [String.length_append, String.length_append, String.length_append,
      String.length_append, String.length_append, String.length_append, hL]
    decide
  refine ⟨by omega, ?_, ?_⟩
  · exact (c9_hard_cap (some (String.mk (List.replicate 4200 'a'))) [] []
      emptyToolDisplay 10000).1
  · exact (c9_hard_cap (some (String.mk (List.replicate 4200 'a'))) [] []
      emptyToolDisplay 10000).2 (by omega)

theorem c10_collapse_without_message_witness :
    initState.messageId = none ∧
    ((step defaultConfig 3 (Ev.collapse (some "done")) initState).2 = none ∧
     (step defaultConfig 3 (Ev.collapse (some "done")) initState).1
       = { initState with stopped := true, timer := none }) :=
  ⟨by decide,
   c10_collapse_without_message defaultConfig 3 initState (some "done") (by decide)⟩

end ThinkingUpdater
